import Mathlib

/-!
A shallow embedding of the vpxtool frontend UI core
(`src/src/frontend/ui.rs`): the ratatui text model used by that file
(spans, lines, texts and the `Add` instances the code chains), the
`IndexedTable` record as the UI reads it, list-label composition
(`impl From<&IndexedTable> for ListItem`), detail composition
(`table_to_paragraph`), the key-binding footer renderer
(`render_key_bindings`) and the `render` entry point.  Collaborator code
that is not part of the visible source (the indexer's `warnings` and
`displayed_name`, the capitalization helper, the time humanizer, the
sort/selection operations of `frontend/state.rs`, and the stateful list
widget's scroll bookkeeping) is modelled from the specification, each
such definition marked in its doc comment.

Machine integers do not occur; lengths and timestamps are `Nat`
(Rust `u64`/`usize` arithmetic here never overflows in the modelled
ranges and `SystemTime` subtraction is modelled as truncated `Nat`
subtraction guarded by the explicit panic check).  Fallible code
(the `unwrap` calls of the source) is modelled with `Option`, `none`
standing for a panic.
-/

namespace Ui

/-- RGB colors; the palette constants of `ui.rs` (tailwind values and the
`GRAY` constant) are particular RGB triples. -/
inductive Color where
  | rgb (r g b : Nat)
deriving DecidableEq, Repr

/-- Constant `AMBER.c500` of the tailwind palette. -/
def AMBER500 : Color := Color.rgb 245 158 11

/-- Constant `CYAN.c500` of the tailwind palette. -/
def CYAN500 : Color := Color.rgb 6 182 212

/-- Constant `SLATE.c800` of the tailwind palette. -/
def SLATE800 : Color := Color.rgb 30 41 59

/-- Constant `GRAY: Color = Color::Rgb(100, 100, 100)` from `ui.rs`. -/
def GRAY : Color := Color.rgb 100 100 100

/-- Style modifiers used by `ui.rs` (`Modifier::BOLD`, `DIM`, `ITALIC`). -/
inductive Modifier where
  | BOLD
  | DIM
  | ITALIC
deriving DecidableEq, Repr

/-- The fragment of ratatui's `Style` that `ui.rs` exercises: foreground,
background, and the three modifiers it sets. -/
structure Style where
  fg : Option Color := none
  bg : Option Color := none
  bold : Bool := false
  dim : Bool := false
  italic : Bool := false
deriving DecidableEq, Repr

/-- ratatui `Style::add_modifier`. -/
def Style.addModifier (st : Style) : Modifier → Style
  | Modifier.BOLD => { st with bold := true }
  | Modifier.DIM => { st with dim := true }
  | Modifier.ITALIC => { st with italic := true }

/-- ratatui `Style::fg`. -/
def Style.setFg (st : Style) (c : Color) : Style := { st with fg := some c }

/-- Constant `LIST_SELECTED_STYLE` from `ui.rs`. -/
def LIST_SELECTED_STYLE : Style :=
  { bg := some SLATE800, fg := some CYAN500, bold := true }

/-- Constant `INFO_ITEM_HEADER_STYLE` from `ui.rs`. -/
def INFO_ITEM_HEADER_STYLE : Style := { fg := some CYAN500 }

/-- Constant `KEY_BINDING_STYLE` from `ui.rs`. -/
def KEY_BINDING_STYLE : Style := { fg := some AMBER500 }

/-- ratatui `Span`: a styled run of text. -/
structure Span where
  content : String
  style : Style := {}
deriving DecidableEq, Repr

/-- Constructor `Span::from(s)` / `Span::raw(s)`. -/
def Span.raw (s : String) : Span := { content := s }

/-- Constructor `Span::from(s).style(st)` / `Span::styled(s, st)`. -/
def Span.styled (s : String) (st : Style) : Span := { content := s, style := st }

/-- Method `Span::add_modifier`. -/
def Span.addModifier (sp : Span) (m : Modifier) : Span :=
  { sp with style := sp.style.addModifier m }

/-- Method `Stylize::fg` on a span (used for the `"[".fg(GRAY)` pieces). -/
def Span.fgColor (sp : Span) (c : Color) : Span :=
  { sp with style := sp.style.setFg c }

/-- ratatui `Line`: a sequence of spans with a line-level style.
`Line::default()` is `{}` (no spans). -/
structure Line where
  spans : List Span := []
  style : Style := {}
deriving DecidableEq, Repr

/-- Constructor `Line::from(s)` for a string: one raw span. -/
def Line.raw (s : String) : Line := { spans := [Span.raw s] }

/-- Constructor `Line::styled(s, st)`: one raw span, line-level style `st`. -/
def Line.styled (s : String) (st : Style) : Line :=
  { spans := [Span.raw s], style := st }

/-- Method `Line::style`, setting the line-level style. -/
def Line.setStyle (l : Line) (st : Style) : Line := { l with style := st }

/-- ratatui `impl Add<Span> for Span`, producing a two-span line. -/
def spanAddSpan (a b : Span) : Line := { spans := [a, b] }

/-- ratatui `impl Add<Span> for Line`, pushing a span. -/
def lineAddSpan (l : Line) (sp : Span) : Line :=
  { l with spans := l.spans ++ [sp] }

/-- ratatui `Text`: a sequence of lines with a text-level style. -/
structure Text where
  lines : List Line := []
  style : Style := {}
deriving DecidableEq, Repr

/-- Constructor `Text::from(line)`: a one-line text. -/
def Text.fromLine (l : Line) : Text := { lines := [l] }

/-- Constructor `Text::from(vec_of_lines)`. -/
def Text.fromLines (ls : List Line) : Text := { lines := ls }

/-- Splits a character list at a separator character; the empty list yields
one empty piece, mirroring `"".split(sep)` in Rust. -/
def splitOnChar (sep : Char) : List Char → List (List Char)
  | [] => [[]]
  | c :: cs =>
    let r := splitOnChar sep cs
    if c = sep then [] :: r
    else
      match r with
      | [] => [[c]]
      | l :: ls => (c :: l) :: ls

/-- Constructor `Text::from(string)` / `Text::raw`: split the content on newlines, one
raw line per piece (the empty string yields a single empty line). -/
def Text.raw (s : String) : Text :=
  { lines := (splitOnChar '\n' s.data).map (fun cs => Line.raw (String.mk cs)) }

/-- Method `Text::style`, setting the text-level style. -/
def Text.setStyle (t : Text) (st : Style) : Text := { t with style := st }

/-- ratatui `impl Add<Line> for Text`: pushes the line (note: also when the
line is `Line::default()`, i.e. an absent-field slot still occupies a line). -/
def textAddLine (t : Text) (l : Line) : Text :=
  { t with lines := t.lines ++ [l] }

/-- ratatui `impl Add<Text> for Text`: concatenates the line lists, keeping
the left text-level style. -/
def textAddText (t u : Text) : Text :=
  { t with lines := t.lines ++ u.lines }

/-- The `TableInfo` fields that `ui.rs` reads (`table_name`,
`table_description`), both optional. -/
structure TableInfo where
  table_name : Option String
  table_description : Option String
deriving DecidableEq, Repr

/-- The `IndexedTable` record as `ui.rs` reads it: `path`, `table_info`,
`game_name`, `local_rom_path`, `b2s_path`, `last_modified` (a timestamp in
seconds).  The two trailing fields are modelled from the spec: §3 declares
optional `primaryResourceRef` / `secondaryResourceRef` resource references
used by the warning evaluator, whose concrete indexer-side representation
is not under `src/`. -/
structure IndexedTable where
  path : String
  table_info : TableInfo
  game_name : Option String
  local_rom_path : Option String
  b2s_path : Option String
  last_modified : Nat
  primaryResourceRef : Option String := none
  secondaryResourceRef : Option String := none
deriving DecidableEq, Repr

/-- Rust `Path::file_name`: the final non-empty path component, dropping
`.` components; `none` for an empty path or a path ending in `..`. -/
def fileName (p : String) : Option String :=
  let comps := (splitOnChar '/' p.data).filter (fun c => !(c = []) && !(c = ['.']))
  match comps.getLast? with
  | none => none
  | some c => if c = ['.', '.'] then none else some (String.mk c)

/-- The stem of a file name: everything before the last dot, except that a
name with no dot, or a leading-dot name with no further dot, is its own
stem (Rust `Path::file_stem` on the file name). -/
def stemOfName (cs : List Char) : List Char :=
  match cs.reverse.dropWhile (fun c => !(c = '.')) with
  | [] => cs
  | _ :: rest => if rest = [] then cs else rest.reverse

/-- Rust `Path::file_stem` on the modelled string path. -/
def fileStem (p : String) : Option String :=
  (fileName p).map (fun n => String.mk (stemOfName n.data))

/-- Modelled from the spec: the capitalization helper collaborator
(`capitalizeFirst`, `src/simplefrontend.rs`, not under `src/`): upper-cases
the first character and leaves the rest unchanged. -/
def capitalize_first_letter (s : String) : String :=
  match s.data with
  | [] => ""
  | c :: cs => String.mk (Char.toUpper c :: cs)

/-- Modelled from the spec: the relative-time humanizer collaborator
(the `timeago` formatter, not under `src/`); §4.3 only requires that it is
called with the elapsed duration and its output embedded verbatim. -/
def humanize (seconds : Nat) : String := toString seconds ++ " seconds ago"

/-- Modelled from the spec: `IndexedTable::warnings` (the indexer module is
not under `src/`).  §4.2: for each declared resource reference, in fixed
field order (primary before secondary), emit one warning naming the missing
resource kind and identifier when the reference is present but its
identifier is not in the availability set. -/
def IndexedTable.warnings (t : IndexedTable) (roms : List String) : List String :=
  (match t.primaryResourceRef with
   | some r => if roms.contains r then [] else ["missing primary resource " ++ r]
   | none => []) ++
  (match t.secondaryResourceRef with
   | some r => if roms.contains r then [] else ["missing secondary resource " ++ r]
   | none => [])

/-- Modelled from the spec: `IndexedTable::displayed_name` (the indexer
module is not under `src/`).  §4.3 item 1 with §4.1: the display label is
`capitalizeFirst(metadata name) ++ " " ++ stem` when the metadata name is
present and non-empty, else the plain file stem; it fails (panics, `none`)
only when the path has no file stem. -/
def IndexedTable.displayed_name (t : IndexedTable) : Option String :=
  (fileStem t.path).map (fun stem =>
    match t.table_info.table_name with
    | some n => if n.isEmpty then stem else capitalize_first_letter n ++ " " ++ stem
    | none => stem)

/-- Function `table_to_paragraph` from `ui.rs`, translated clause by clause; the
`time.elapsed().unwrap()` call is the explicit guard `last_modified ≤ now`
(`SystemTime::elapsed` errors, hence the `unwrap` panics, when the
timestamp lies in the future), and the `displayed_name` panic propagates
as `none`. -/
def table_to_paragraph (t : IndexedTable) (roms : List String) (now : Nat) : Option Text :=
  match t.displayed_name with
  | none => none
  | some table_name =>
    let name_line := (Line.raw table_name).setStyle { fg := some AMBER500, bold := true }
    let name_text := Text.fromLine name_line
    let warnings := (t.warnings roms).map
      (fun w => Line.styled ("⚠️ " ++ w) { fg := some AMBER500 })
    let warning_text := Text.fromLines warnings
    let path_line := spanAddSpan (Span.styled "Path:          " INFO_ITEM_HEADER_STYLE)
      (Span.raw t.path)
    let game_name_line := (t.game_name.map (fun n =>
      spanAddSpan (Span.styled "Game Name:     " INFO_ITEM_HEADER_STYLE) (Span.raw n))).getD {}
    let rom_line := (t.local_rom_path.map (fun p =>
      spanAddSpan (Span.styled "Rom Path:      " INFO_ITEM_HEADER_STYLE) (Span.raw p))).getD {}
    let b2s_line := (t.b2s_path.map (fun p =>
      spanAddSpan (Span.styled "B2S Path:      " INFO_ITEM_HEADER_STYLE) (Span.raw p))).getD {}
    if t.last_modified ≤ now then
      let last_modified_human_readable := humanize (now - t.last_modified)
      let last_modified_line := spanAddSpan
        (Span.styled "Last Modified: " INFO_ITEM_HEADER_STYLE)
        (Span.raw last_modified_human_readable)
      let description := t.table_info.table_description.getD ""
      some (textAddText
        (textAddLine
          (textAddLine
            (textAddLine
              (textAddLine
                (textAddLine
                  (textAddText
                    (textAddText
                      (textAddLine name_text (Line.raw ""))
                      warning_text)
                    (Text.fromLine path_line))
                  game_name_line)
                rom_line)
              b2s_line)
            last_modified_line)
          (Line.raw ""))
        (Text.raw description))
    else none

/-- Conversion `impl From<&IndexedTable> for ListItem` from `ui.rs`: the list label.
The `file_stem().unwrap()` panic is `none`; otherwise the
`Some(..).filter(..).map(..).unwrap_or(..)` chain is translated directly. -/
def listItemFrom (t : IndexedTable) : Option Line :=
  match fileStem t.path with
  | none => none
  | some file_stem =>
    some ((((some t.table_info.table_name).filter
        (fun s => !(s.getD "").isEmpty)).map (fun s =>
          lineAddSpan
            (spanAddSpan (Span.raw (capitalize_first_letter (s.getD "")))
              (Span.raw " "))
            ((Span.raw file_stem).addModifier Modifier.DIM))).getD
      (Line.raw file_stem))

/-- ratatui `ListState`: scroll offset plus optional selected index. -/
structure ListState where
  offset : Nat := 0
  selected : Option Nat := none
deriving DecidableEq, Repr

/-- Enum `TablesSort` from `frontend/state.rs` as matched by `ui.rs`. -/
inductive TablesSort where
  | Name
  | LastModified
deriving DecidableEq, Repr

/-- The `tables` part of the frontend `State` as `ui.rs` reads it: the item
list, the list widget state, the scrollbar state (modelled as its position)
and the sort mode. -/
structure TablesState where
  items : List IndexedTable
  state : ListState
  vertical_scroll_state : Nat
  sort : TablesSort
deriving DecidableEq, Repr

/-- The frontend `State` fields that `ui.rs` reads: the table list state and
the set of available ROM identifiers (a `HashSet<String>`, modelled as a
membership list). -/
structure State where
  tables : TablesState
  roms : List String
deriving DecidableEq, Repr

/-- Modelled from the spec: `State::get_key_bindings`
(`frontend/state.rs`, not under `src/`); §4.5: a static ordered list of
(key label, description) pairs for the current context. -/
def State.get_key_bindings (_ : State) : List (String × String) :=
  [("↑/↓", "Navigate"), ("s", "Sort"), ("q", "Quit")]

/-- One iteration of the `flat_map` in `render_key_bindings`: brackets and
arrow in gray, the key label in `KEY_BINDING_STYLE`, then a single-space
separator span after every entry except the last (an empty span there). -/
def key_binding_spans (n : Nat) (ikd : Nat × (String × String)) : List Span :=
  [ (Span.raw "[").fgColor GRAY,
    Span.styled ikd.2.1 KEY_BINDING_STYLE,
    (Span.raw " → ").fgColor GRAY,
    Span.raw ikd.2.2,
    (Span.raw "]").fgColor GRAY,
    if ikd.1 ≠ n - 1 then Span.raw " " else Span.raw "" ]

/-- The footer line built by `render_key_bindings` in `ui.rs`:
`Line::from(bindings.iter().enumerate().flat_map(..).collect())`. -/
def key_bindings_line (kbs : List (String × String)) : Line :=
  { spans := kbs.enum.flatMap (key_binding_spans kbs.length) }

/-- The sorting label computed by the `match state.tables.sort` in `render`. -/
def sortingLabel : TablesSort → String
  | TablesSort.Name => "Alphabetical"
  | TablesSort.LastModified => "Last Modified"

/-- The list block title built in `render`:
`Span::from("Tables") + Span::from(format!(" ({}) ", sorting)).add_modifier(Modifier::DIM)`. -/
def listTitle (sort : TablesSort) : Line :=
  spanAddSpan (Span.raw "Tables")
    ((Span.raw (" (" ++ sortingLabel sort ++ ") ")).addModifier Modifier.DIM)

/-- A terminal region; only the height participates in the modelled
behavior (the horizontal percentage split affects widths alone). -/
structure Rect where
  width : Nat
  height : Nat
deriving DecidableEq, Repr

/-- The height of the list widget's inner area for a frame of the given
size: the layout of `render` takes a margin of 1 (two rows), a
one-row footer, and the list block's top and bottom borders (two rows);
`Nat` subtraction saturates exactly like the layout solver's clamping. -/
def viewportHeight (area : Rect) : Nat := area.height - 5

/-- Modelled from the spec: the scroll bookkeeping of the stateful list
widget invoked by `render` (`f.render_stateful_widget(tables, ..)`, the
frame backend is not under `src/`).  §4.4 `scrollSync`: the offset is
recomputed deterministically as the minimal scroll keeping the cursor
inside the visible window of the given height; an out-of-range cursor is
clamped to the last item; an empty list or an empty window leaves the
state untouched. -/
def listStatefulUpdate (ls : ListState) (h len : Nat) : ListState :=
  if h = 0 ∨ len = 0 then ls
  else
    let sel := match ls.selected with
      | some s => some (min s (len - 1))
      | none => none
    let off := min ls.offset (len - 1)
    let idx := match sel with
      | some s => s
      | none => off
    let off2 := if idx < off then idx else if off + h ≤ idx then idx + 1 - h else off
    { offset := off2, selected := sel }

/-- Maps a fallible (panic-modelling) function over a list, propagating the
first `none`: the effect of Rust's `iter().map(..).collect()` when the
closure can panic. -/
def mapOption {α β : Type} (f : α → Option β) : List α → Option (List β)
  | [] => some []
  | a :: as =>
    match f a with
    | none => none
    | some b => (mapOption f as).map (fun bs => b :: bs)

/-- The observable output of one `render` pass: the list block title, the
composed list rows, the detail text and the footer line. -/
structure RenderOutput where
  list_title : Line
  list_items : List Line
  detail : Text
  footer : Line
deriving DecidableEq, Repr

/-- The `paragraph_text` match of `render`: the detail text for the
selected item, the italic "No table selected" placeholder when nothing is
selected, and a panic (`none`) on an out-of-range selected index, as
`state.tables.items[i]` would. -/
def detailText (s : State) (now : Nat) : Option Text :=
  match s.tables.state.selected with
  | some i =>
    match s.tables.items[i]? with
    | some t => table_to_paragraph t s.roms now
    | none => none
  | none => some ((Text.raw "No table selected").setStyle { italic := true })

/-- Function `render` from `ui.rs`: composes every list row, the detail text (per
`detailText`), the title and the footer; the returned state reflects the
stateful list widget's scroll bookkeeping, every other field unchanged. -/
def render (s : State) (area : Rect) (now : Nat) : Option (RenderOutput × State) := do
  let items ← mapOption listItemFrom s.tables.items
  let detail ← detailText s now
  let newListState := listStatefulUpdate s.tables.state (viewportHeight area)
    s.tables.items.length
  pure ({ list_title := listTitle s.tables.sort,
          list_items := items,
          detail := detail,
          footer := key_bindings_line s.get_key_bindings },
        { s with tables := { s.tables with state := newListState } })

/-- The case-normalized comparison key of §4.4: the display label,
lower-cased (the absent-stem edge case keys as the empty label). -/
def labelKeyChars (t : IndexedTable) : List Char :=
  (t.displayed_name.getD "").data.map Char.toLower

/-- Lexicographic comparison of character lists, total and reflexive. -/
def charListLe : List Char → List Char → Bool
  | [], _ => true
  | _ :: _, [] => false
  | a :: as, b :: bs => if a = b then charListLe as bs else decide (a < b)

/-- Modelled from the spec: the comparator table of §4.4 `setSortMode`
(`frontend/state.rs` is not under `src/`): ByName sorts case-normalized
lexicographically on the display label, ByLastModified sorts descending by
timestamp; both stably (insertion sort preserves the original order of
ties). -/
def sortItems : TablesSort → List IndexedTable → List IndexedTable
  | TablesSort.Name, items =>
    List.insertionSort (fun a b => charListLe (labelKeyChars a) (labelKeyChars b) = true) items
  | TablesSort.LastModified, items =>
    List.insertionSort (fun a b => b.last_modified ≤ a.last_modified) items

/-- Modelled from the spec: `setSortMode` (`frontend/state.rs`, not under
`src/`); §4.4 and §3: re-sort `items` by the mode's comparator, then
re-resolve the cursor by identity — it points at wherever the previously
selected item now lives, and becomes `none` only if that item was removed
(a re-sort never removes items). -/
def setSortMode (ts : TablesState) (mode : TablesSort) : TablesState :=
  let selectedItem := ts.state.selected.bind (fun i => ts.items[i]?)
  let sorted := sortItems mode ts.items
  let newSelected := match selectedItem with
    | some it => if it ∈ sorted then some (List.indexOf it sorted) else none
    | none => ts.state.selected
  { ts with
    items := sorted,
    sort := mode,
    state := { ts.state with selected := newSelected } }

/-- The concatenated text content of a line. -/
def lineContent (l : Line) : String :=
  l.spans.foldr (fun sp acc => sp.content ++ acc) ""

/-- The concatenated text content of a span list. -/
def contentOfSpans (l : List Span) : String :=
  l.foldr (fun sp acc => sp.content ++ acc) ""

/-- A line carries the given detail-pane field header: some span has
exactly the header as content, styled with `INFO_ITEM_HEADER_STYLE`. -/
def hasHeaderSpan (l : Line) (hdr : String) : Prop :=
  ∃ sp ∈ l.spans, sp.content = hdr ∧ sp.style = INFO_ITEM_HEADER_STYLE

/-- Some line of the text carries the given detail-pane field header. -/
def textHasHeaderLine (t : Text) (hdr : String) : Prop :=
  ∃ l ∈ t.lines, hasHeaderSpan l hdr

/-- The line count §4.3 prescribes when absent optional fields are handled
by omission; follows the spec's words, for comparison with
`table_to_paragraph`: title and blank (2), the warnings, the Path line (1),
one line per present optional field, the Last Modified line and the second
blank (2), and the description's lines only when a description exists. -/
def specOmittedLineCount (t : IndexedTable) (roms : List String) : Nat :=
  2 + (t.warnings roms).length + 1
    + (match t.game_name with | some _ => 1 | none => 0)
    + (match t.local_rom_path with | some _ => 1 | none => 0)
    + (match t.b2s_path with | some _ => 1 | none => 0)
    + 2
    + (match t.table_info.table_description with
       | some d => (Text.raw d).lines.length
       | none => 0)

/-- The bracket/arrow decoration of one key binding as the footer shows it. -/
def bracketed (kd : String × String) : String :=
  "[" ++ kd.1 ++ " → " ++ kd.2 ++ "]"

/-- The decorated bindings joined with exactly one space between
consecutive entries and nothing after the last. -/
def joinedBindings : List (String × String) → String
  | [] => ""
  | [kd] => bracketed kd
  | kd :: kd2 :: rest => bracketed kd ++ " " ++ joinedBindings (kd2 :: rest)

/-- C5: for every catalog item and every availability set,
`WarningEvaluator.evaluate` (the modelled `IndexedTable::warnings`) returns
the empty sequence if and only if every resource reference declared by the
item is a member of the availability set; in particular it returns the
empty sequence whenever the item declares no references. -/
theorem c5_warnings_empty_iff (t : IndexedTable) (roms : List String) :
    (t.warnings roms = [] ↔
      ((∀ r, t.primaryResourceRef = some r → r ∈ roms) ∧
       (∀ r, t.secondaryResourceRef = some r → r ∈ roms))) ∧
    (t.primaryResourceRef = none → t.secondaryResourceRef = none →
      t.warnings roms = []) := by
  have hciff : ∀ x : String, roms.contains x = true ↔ x ∈ roms := fun x => by
    simp [List.contains, List.elem_iff]
  constructor
  · cases hp : t.primaryResourceRef <;> cases hs : t.secondaryResourceRef <;>
      simp only [IndexedTable.warnings, hp, hs] <;>
      simp [hciff] <;> split_ifs <;> simp_all
  · intro hp hs
    simp [IndexedTable.warnings, hp, hs]

/-- C2: for every catalog item whose path has a file stem, the list label is
exactly the file stem when the metadata table name is absent or the empty
string, and `capitalize_first_letter(name)`, a single space, and the file
stem as a dimmed but textually unchanged span otherwise. -/
theorem c2_label_composition (t : IndexedTable) (st : String)
    (hstem : fileStem t.path = some st) :
    ((t.table_info.table_name = none ∨ t.table_info.table_name = some "") →
      listItemFrom t = some (Line.raw st)) ∧
    (∀ n, t.table_info.table_name = some n → n ≠ "" →
      listItemFrom t = some
        { spans := [Span.raw (capitalize_first_letter n), Span.raw " ",
                    { content := st, style := { dim := true } }] }) := by
  constructor
  · intro h
    have h0 : "".isEmpty = true := rfl
    rcases h with h | h <;>
      simp [listItemFrom, hstem, h, Option.filter, Line.raw, h0]
  · intro n hn hne
    have hnE : n.isEmpty = false := by
      cases hE : n.isEmpty with
      | false => rfl
      | true => exact absurd ((String.isEmpty_iff n).mp hE) hne
    simp [listItemFrom, hstem, hn, Option.filter, hnE, lineAddSpan, spanAddSpan,
      Span.raw, Span.addModifier, Style.addModifier, Span.styled]

/-- Witness for C2 at the spec's own example: metadata name
`"medieval madness"`, stem `mm_v1.2`. -/
theorem c2_label_composition_witness :
    fileStem "tables/mm_v1.2.vpx" = some "mm_v1.2" ∧
    listItemFrom
      { path := "tables/mm_v1.2.vpx",
        table_info := { table_name := some "medieval madness", table_description := none },
        game_name := none, local_rom_path := none, b2s_path := none,
        last_modified := 0 } =
      some { spans := [Span.raw "Medieval madness", Span.raw " ",
                       { content := "mm_v1.2", style := { dim := true } }] } := by
  refine ⟨by decide, ?_⟩
  exact (c2_label_composition
    { path := "tables/mm_v1.2.vpx",
      table_info := { table_name := some "medieval madness", table_description := none },
      game_name := none, local_rom_path := none, b2s_path := none,
      last_modified := 0 }
    "mm_v1.2" (by decide)).2 "medieval madness" rfl (by decide)

theorem contentOfSpans_cons (sp : Span) (l : List Span) :
    contentOfSpans (sp :: l) = sp.content ++ contentOfSpans l := rfl

theorem contentOfSpans_append (a b : List Span) :
    contentOfSpans (a ++ b) = contentOfSpans a ++ contentOfSpans b := by
  induction a with
  | nil =>
    have h : contentOfSpans [] = "" := rfl
    simp [h, contentOfSpans]
  | cons sp rest ih =>
    rw [List.cons_append, contentOfSpans_cons, contentOfSpans_cons, ih,
      String.append_assoc]

theorem keyspans_content (n : Nat) :
    ∀ (xs : List (String × String)) (k : Nat), k + xs.length = n →
      contentOfSpans ((List.enumFrom k xs).flatMap (key_binding_spans n)) =
        joinedBindings xs := by
  intro xs
  induction xs with
  | nil => intro k _; rfl
  | cons x rest ih =>
    intro k hk
    rw [List.enumFrom_cons, List.flatMap_cons, contentOfSpans_append]
    cases rest with
    | nil =>
      have hkn : ¬ (k ≠ n - 1) := by
        simp only [List.length_cons, List.length_nil] at hk
        omega
      simp [key_binding_spans, contentOfSpans, hkn, joinedBindings, bracketed,
        Span.raw, Span.styled, Span.fgColor, String.append_assoc]
    | cons y rest2 =>
      have hkn : k ≠ n - 1 := by
        simp only [List.length_cons] at hk
        omega
      have hrest := ih (k + 1) (by simp only [List.length_cons] at hk ⊢; omega)
      rw [hrest]
      simp [key_binding_spans, contentOfSpans, hkn, joinedBindings, bracketed,
        Span.raw, Span.styled, Span.fgColor, String.append_assoc]

/-- C9: for every ordered sequence of (key, description) bindings, the text
of the footer line is each binding wrapped in bracket/arrow decorations,
with exactly one space between consecutive entries and no trailing
separator after the last entry. -/
theorem c9_footer_separators (kbs : List (String × String)) :
    lineContent (key_bindings_line kbs) = joinedBindings kbs := by
  have h := keyspans_content kbs.length kbs 0 (by simp)
  simpa [lineContent, key_bindings_line, contentOfSpans, List.enum] using h

/-- Characterization of the detail block: flattening the `Add`-chain of
`table_to_paragraph` yields this explicit line list (absent optional fields
contribute the `Line::default()` slot their `unwrap_or_default` produces). -/
theorem table_to_paragraph_eq (t : IndexedTable) (roms : List String) (now : Nat)
    (nm : String) (hname : t.displayed_name = some nm) (hlm : t.last_modified ≤ now) :
    table_to_paragraph t roms now = some
      { lines :=
          [ { spans := [Span.raw nm], style := { fg := some AMBER500, bold := true } },
            Line.raw "" ]
          ++ (t.warnings roms).map
              (fun w => Line.styled ("⚠️ " ++ w) { fg := some AMBER500 })
          ++ [ spanAddSpan (Span.styled "Path:          " INFO_ITEM_HEADER_STYLE)
                 (Span.raw t.path),
               (t.game_name.map (fun n =>
                 spanAddSpan (Span.styled "Game Name:     " INFO_ITEM_HEADER_STYLE)
                   (Span.raw n))).getD {},
               (t.local_rom_path.map (fun p =>
                 spanAddSpan (Span.styled "Rom Path:      " INFO_ITEM_HEADER_STYLE)
                   (Span.raw p))).getD {},
               (t.b2s_path.map (fun p =>
                 spanAddSpan (Span.styled "B2S Path:      " INFO_ITEM_HEADER_STYLE)
                   (Span.raw p))).getD {},
               spanAddSpan (Span.styled "Last Modified: " INFO_ITEM_HEADER_STYLE)
                 (Span.raw (humanize (now - t.last_modified))),
               Line.raw "" ]
          ++ (Text.raw (t.table_info.table_description.getD "")).lines } := by
  unfold table_to_paragraph
  rw [hname]
  simp [hlm, textAddLine, textAddText, Text.fromLine, Text.fromLines,
    Line.setStyle, Line.raw]

/-- C7: for every catalog item and availability set (under the documented
preconditions that the display name resolves and the timestamp is not in
the future), the detail block is assembled in exactly the fixed order:
title label line, blank separator, one glyph-prefixed line per warning,
Path line, game/associated-name slot, primary (ROM) resource path slot,
secondary (B2S) resource path slot, Last Modified line, blank separator,
then the free-text description lines. -/
theorem c7_fixed_order (t : IndexedTable) (roms : List String) (now : Nat)
    (nm : String) (hname : t.displayed_name = some nm) (hlm : t.last_modified ≤ now) :
    table_to_paragraph t roms now = some
      { lines :=
          [ { spans := [Span.raw nm], style := { fg := some AMBER500, bold := true } },
            Line.raw "" ]
          ++ (t.warnings roms).map
              (fun w => Line.styled ("⚠️ " ++ w) { fg := some AMBER500 })
          ++ [ spanAddSpan (Span.styled "Path:          " INFO_ITEM_HEADER_STYLE)
                 (Span.raw t.path),
               (t.game_name.map (fun n =>
                 spanAddSpan (Span.styled "Game Name:     " INFO_ITEM_HEADER_STYLE)
                   (Span.raw n))).getD {},
               (t.local_rom_path.map (fun p =>
                 spanAddSpan (Span.styled "Rom Path:      " INFO_ITEM_HEADER_STYLE)
                   (Span.raw p))).getD {},
               (t.b2s_path.map (fun p =>
                 spanAddSpan (Span.styled "B2S Path:      " INFO_ITEM_HEADER_STYLE)
                   (Span.raw p))).getD {},
               spanAddSpan (Span.styled "Last Modified: " INFO_ITEM_HEADER_STYLE)
                 (Span.raw (humanize (now - t.last_modified))),
               Line.raw "" ]
          ++ (Text.raw (t.table_info.table_description.getD "")).lines } :=
  table_to_paragraph_eq t roms now nm hname hlm

/-- A fully populated item used to instantiate C7: one missing secondary
resource (so exactly one warning), every optional field present. -/
def c7item : IndexedTable :=
  { path := "tables/ab.vpx",
    table_info := { table_name := some "ab", table_description := some "A demo table." },
    game_name := some "gn",
    local_rom_path := some "/roms/ab.rom",
    b2s_path := some "/b2s/ab.directb2s",
    last_modified := 5,
    primaryResourceRef := some "abrom",
    secondaryResourceRef := some "abb2s" }

/-- Witness for C7 at a concrete fully populated item. -/
theorem c7_fixed_order_witness :
    table_to_paragraph c7item ["abrom"] 10 = some
      { lines :=
          [ { spans := [Span.raw "Ab ab"], style := { fg := some AMBER500, bold := true } },
            Line.raw "" ]
          ++ (c7item.warnings ["abrom"]).map
              (fun w => Line.styled ("⚠️ " ++ w) { fg := some AMBER500 })
          ++ [ spanAddSpan (Span.styled "Path:          " INFO_ITEM_HEADER_STYLE)
                 (Span.raw c7item.path),
               (c7item.game_name.map (fun n =>
                 spanAddSpan (Span.styled "Game Name:     " INFO_ITEM_HEADER_STYLE)
                   (Span.raw n))).getD {},
               (c7item.local_rom_path.map (fun p =>
                 spanAddSpan (Span.styled "Rom Path:      " INFO_ITEM_HEADER_STYLE)
                   (Span.raw p))).getD {},
               (c7item.b2s_path.map (fun p =>
                 spanAddSpan (Span.styled "B2S Path:      " INFO_ITEM_HEADER_STYLE)
                   (Span.raw p))).getD {},
               spanAddSpan (Span.styled "Last Modified: " INFO_ITEM_HEADER_STYLE)
                 (Span.raw (humanize (10 - c7item.last_modified))),
               Line.raw "" ]
          ++ (Text.raw (c7item.table_info.table_description.getD "")).lines } :=
  c7_fixed_order c7item ["abrom"] 10 "Ab ab" (by decide) (by decide)

/-- An item with every optional field absent and no declared resource
references, over the empty availability set. -/
def c1item : IndexedTable :=
  { path := "tables/demo.vpx",
    table_info := { table_name := none, table_description := none },
    game_name := none, local_rom_path := none, b2s_path := none,
    last_modified := 0 }

/-- Counterexample for C1 as stated: with every optional field absent the
composed detail block still has 9 lines (three empty slot lines where the
absent game-name, ROM-path and B2S-path lines would be, plus an empty
description line), while composing by omission would yield 5; absent
optional fields are not handled by omission. -/
theorem c1_counterexample :
    (table_to_paragraph c1item [] 0).map (fun b => b.lines.length) = some 9 ∧
    specOmittedLineCount c1item [] = 5 ∧
    (table_to_paragraph c1item [] 0).map (fun b => b.lines.length) ≠
      some (specOmittedLineCount c1item []) := by
  refine ⟨by decide, by decide, by decide⟩

/-- C1 amended: the detail block always contains the mandatory Path and
Last Modified header lines, and contains no header-labelled line for any
absent optional field — but an absent optional field still occupies an
empty placeholder line, so the block's line count is a fixed
8 + warnings + description lines regardless of which optional fields are
present. -/
theorem c1_amended_detail_lines (t : IndexedTable) (roms : List String) (now : Nat)
    (nm : String) (hname : t.displayed_name = some nm) (hlm : t.last_modified ≤ now) :
    ∃ b, table_to_paragraph t roms now = some b ∧
      textHasHeaderLine b "Path:          " ∧
      textHasHeaderLine b "Last Modified: " ∧
      (t.game_name = none → ¬ textHasHeaderLine b "Game Name:     ") ∧
      (t.local_rom_path = none → ¬ textHasHeaderLine b "Rom Path:      ") ∧
      (t.b2s_path = none → ¬ textHasHeaderLine b "B2S Path:      ") ∧
      b.lines.length =
        8 + (t.warnings roms).length +
          (Text.raw (t.table_info.table_description.getD "")).lines.length := by
  refine ⟨_, table_to_paragraph_eq t roms now nm hname hlm, ?_, ?_, ?_, ?_, ?_, ?_⟩
  · refine ⟨spanAddSpan (Span.styled "Path:          " INFO_ITEM_HEADER_STYLE)
      (Span.raw t.path), ?_, ?_⟩
    · simp [List.mem_append]
    · exact ⟨Span.styled "Path:          " INFO_ITEM_HEADER_STYLE,
        by simp [spanAddSpan], rfl, rfl⟩
  · refine ⟨spanAddSpan (Span.styled "Last Modified: " INFO_ITEM_HEADER_STYLE)
      (Span.raw (humanize (now - t.last_modified))), ?_, ?_⟩
    · simp [List.mem_append]
    · exact ⟨Span.styled "Last Modified: " INFO_ITEM_HEADER_STYLE,
        by simp [spanAddSpan], rfl, rfl⟩
  · intro hgn
    rcases hrom : t.local_rom_path with _ | rp <;>
      rcases hb2s : t.b2s_path with _ | bp <;>
      simp [hgn, textHasHeaderLine, hasHeaderSpan, List.mem_append, spanAddSpan,
        Span.styled, Span.raw, Line.raw, Line.styled, Text.raw,
        INFO_ITEM_HEADER_STYLE, CYAN500, List.mem_map] <;>
      aesop
  · intro hrom
    rcases hgn : t.game_name with _ | gn <;>
      rcases hb2s : t.b2s_path with _ | bp <;>
      simp [hrom, textHasHeaderLine, hasHeaderSpan, List.mem_append, spanAddSpan,
        Span.styled, Span.raw, Line.raw, Line.styled, Text.raw,
        INFO_ITEM_HEADER_STYLE, CYAN500, List.mem_map] <;>
      aesop
  · intro hb2s
    rcases hgn : t.game_name with _ | gn <;>
      rcases hrom : t.local_rom_path with _ | rp <;>
      simp [hb2s, textHasHeaderLine, hasHeaderSpan, List.mem_append, spanAddSpan,
        Span.styled, Span.raw, Line.raw, Line.styled, Text.raw,
        INFO_ITEM_HEADER_STYLE, CYAN500, List.mem_map] <;>
      aesop
  · simp [List.length_append]
    omega

/-- Witness for C1's amended statement at the all-optional-fields-absent
item. -/
theorem c1_amended_detail_lines_witness :
    ∃ b, table_to_paragraph c1item [] 0 = some b ∧
      textHasHeaderLine b "Path:          " ∧
      textHasHeaderLine b "Last Modified: " ∧
      (c1item.game_name = none → ¬ textHasHeaderLine b "Game Name:     ") ∧
      (c1item.local_rom_path = none → ¬ textHasHeaderLine b "Rom Path:      ") ∧
      (c1item.b2s_path = none → ¬ textHasHeaderLine b "B2S Path:      ") ∧
      b.lines.length =
        8 + (c1item.warnings []).length +
          (Text.raw (c1item.table_info.table_description.getD "")).lines.length :=
  c1_amended_detail_lines c1item [] 0 "demo" (by decide) (by decide)

/-- A fallible map over a list succeeds when every element succeeds. -/
theorem mapOption_isSome {α β : Type} (f : α → Option β) :
    ∀ l : List α, (∀ a ∈ l, (f a).isSome = true) → ∃ ys, mapOption f l = some ys := by
  intro l
  induction l with
  | nil => intro _; exact ⟨[], rfl⟩
  | cons a as ih =>
    intro h
    rcases Option.isSome_iff_exists.mp (h a (by simp)) with ⟨b, hb⟩
    rcases ih (fun x hx => h x (by simp [hx])) with ⟨ys, hys⟩
    exact ⟨b :: ys, by simp [mapOption, hb, hys]⟩

/-- Label composition succeeds whenever the path has a file stem. -/
theorem listItemFrom_isSome (t : IndexedTable)
    (h : (fileStem t.path).isSome = true) : (listItemFrom t).isSome = true := by
  rcases Option.isSome_iff_exists.mp h with ⟨st, hst⟩
  simp [listItemFrom, hst]

/-- The display name resolves whenever the path has a file stem. -/
theorem displayed_name_isSome (t : IndexedTable)
    (h : (fileStem t.path).isSome = true) : t.displayed_name.isSome = true := by
  rcases Option.isSome_iff_exists.mp h with ⟨st, hst⟩
  simp [IndexedTable.displayed_name, hst]

/-- Detail composition succeeds whenever the path has a file stem and the
timestamp is not in the future. -/
theorem table_to_paragraph_isSome (t : IndexedTable) (roms : List String) (now : Nat)
    (h : (fileStem t.path).isSome = true) (hlm : t.last_modified ≤ now) :
    (table_to_paragraph t roms now).isSome = true := by
  rcases Option.isSome_iff_exists.mp (displayed_name_isSome t h) with ⟨nm, hnm⟩
  rw [table_to_paragraph_eq t roms now nm hnm hlm]
  rfl

/-- Function `render` succeeds when every item path has a stem and a selected index,
if any, points at an item whose timestamp is not in the future. -/
theorem render_isSome (s : State) (area : Rect) (now : Nat)
    (hstems : ∀ t ∈ s.tables.items, (fileStem t.path).isSome = true)
    (hsel : ∀ i, s.tables.state.selected = some i →
      ∃ t, s.tables.items[i]? = some t ∧ t.last_modified ≤ now) :
    (render s area now).isSome = true := by
  rcases mapOption_isSome listItemFrom s.tables.items
    (fun t ht => listItemFrom_isSome t (hstems t ht)) with ⟨items, hitems⟩
  have hdt : ∃ d, detailText s now = some d := by
    cases hs : s.tables.state.selected with
    | none =>
      exact ⟨(Text.raw "No table selected").setStyle { italic := true },
        by simp [detailText, hs]⟩
    | some i =>
      rcases hsel i hs with ⟨t, hti, hlm⟩
      have hstem : (fileStem t.path).isSome = true :=
        hstems t (List.getElem?_mem hti)
      rcases Option.isSome_iff_exists.mp
        (table_to_paragraph_isSome t s.roms now hstem hlm) with ⟨b, hb⟩
      exact ⟨b, by simp [detailText, hs, hti, hb]⟩
  rcases hdt with ⟨d, hd⟩
  simp [render, hitems, hd]

/-- An item whose path is well formed (it has a file stem) but whose
last-modified timestamp lies in the future of the render instant. -/
def c4item : IndexedTable :=
  { path := "tables/future.vpx",
    table_info := { table_name := none, table_description := none },
    game_name := none, local_rom_path := none, b2s_path := none,
    last_modified := 1 }

/-- Counterexample for C4 as stated: a well-formed item (the path has a
file stem, so label composition succeeds) whose timestamp is one second in
the future makes detail composition panic, via
`time.elapsed().unwrap()`. -/
theorem c4_counterexample :
    (fileStem c4item.path).isSome = true ∧
    (listItemFrom c4item).isSome = true ∧
    table_to_paragraph c4item [] 0 = none := by
  refine ⟨by decide, by decide, by decide⟩

/-- C4 amended: label composition, detail composition and `render` are
total over well-formed input, provided additionally that every item's path
has a file stem and no item's last-modified timestamp lies in the future
of the render instant. -/
theorem c4_amended_totality (s : State) (area : Rect) (now : Nat)
    (hstems : ∀ t ∈ s.tables.items, (fileStem t.path).isSome = true)
    (hlms : ∀ t ∈ s.tables.items, t.last_modified ≤ now)
    (hsel : ∀ i, s.tables.state.selected = some i → i < s.tables.items.length) :
    (render s area now).isSome = true ∧
    (∀ t ∈ s.tables.items, (listItemFrom t).isSome = true ∧
      (table_to_paragraph t s.roms now).isSome = true) := by
  constructor
  · have hsel2 : ∀ i, s.tables.state.selected = some i →
        ∃ t, s.tables.items[i]? = some t ∧ t.last_modified ≤ now := by
      intro i hi
      have hlen := hsel i hi
      refine ⟨s.tables.items[i], List.getElem?_eq_getElem hlen, ?_⟩
      exact hlms _ (List.getElem_mem hlen)
    exact render_isSome s area now hstems hsel2
  · intro t ht
    exact ⟨listItemFrom_isSome t (hstems t ht),
      table_to_paragraph_isSome t s.roms now (hstems t ht) (hlms t ht)⟩

/-- Witness for C4's amended statement: a one-item state with a valid
cursor renders successfully. -/
theorem c4_amended_totality_witness :
    (render
      { tables := { items := [c1item], state := { offset := 0, selected := some 0 },
                    vertical_scroll_state := 0, sort := TablesSort.Name },
        roms := [] } { width := 40, height := 12 } 0).isSome = true := by
  exact (c4_amended_totality
    { tables := { items := [c1item], state := { offset := 0, selected := some 0 },
                  vertical_scroll_state := 0, sort := TablesSort.Name },
      roms := [] } { width := 40, height := 12 } 0
    (by decide) (by decide) (by decide)).1

/-- C8: whenever no item is selected, the composed detail output is exactly
the single italic placeholder line "No table selected" and no item-derived
detail content is produced. -/
theorem c8_no_selection_placeholder (s : State) (area : Rect) (now : Nat)
    (hsel : s.tables.state.selected = none)
    (hstems : ∀ t ∈ s.tables.items, (fileStem t.path).isSome = true) :
    ∃ out s2, render s area now = some (out, s2) ∧
      out.detail = { lines := [Line.raw "No table selected"],
                     style := { italic := true } } := by
  rcases mapOption_isSome listItemFrom s.tables.items
    (fun t ht => listItemFrom_isSome t (hstems t ht)) with ⟨items, hitems⟩
  refine ⟨{ list_title := listTitle s.tables.sort, list_items := items,
            detail := (Text.raw "No table selected").setStyle { italic := true },
            footer := key_bindings_line s.get_key_bindings },
          { s with tables := { s.tables with
              state := listStatefulUpdate s.tables.state (viewportHeight area)
                s.tables.items.length } },
          ?_, ?_⟩
  · have hdt : detailText s now =
        some ((Text.raw "No table selected").setStyle { italic := true }) := by
      simp [detailText, hsel]
    simp [render, hitems, hdt]
  · rfl

/-- Witness for C8 at the empty-list state (a first-class valid state). -/
theorem c8_no_selection_placeholder_witness :
    ∃ out s2, render
      { tables := { items := [], state := { offset := 0, selected := none },
                    vertical_scroll_state := 0, sort := TablesSort.Name },
        roms := [] } { width := 40, height := 12 } 0 = some (out, s2) ∧
      out.detail = { lines := [Line.raw "No table selected"],
                     style := { italic := true } } :=
  c8_no_selection_placeholder
    { tables := { items := [], state := { offset := 0, selected := none },
                  vertical_scroll_state := 0, sort := TablesSort.Name },
      roms := [] } { width := 40, height := 12 } 0 rfl (by decide)

/-- Whenever `render` succeeds its output carries `listTitle` of the
current sort mode as the list block title. -/
theorem render_list_title (s : State) (area : Rect) (now : Nat)
    (out : RenderOutput) (s2 : State)
    (h : render s area now = some (out, s2)) :
    out.list_title = listTitle s.tables.sort := by
  unfold render at h
  rcases hmo : mapOption listItemFrom s.tables.items with _ | items <;> rw [hmo] at h
  · simp at h
  · rcases hdt : detailText s now with _ | d <;> rw [hdt] at h
    · simp at h
    · simp at h
      rw [← h.1]

/-- C10: the rendered list pane title always reflects the current sort
mode: "Tables" followed by a dimmed " (Alphabetical) " under ByName and a
dimmed " (Last Modified) " under ByLastModified. -/
theorem c10_title_reflects_sort (s : State) (area : Rect) (now : Nat)
    (out : RenderOutput) (s2 : State)
    (h : render s area now = some (out, s2)) :
    (s.tables.sort = TablesSort.Name →
      out.list_title = { spans := [Span.raw "Tables",
        { content := " (Alphabetical) ", style := { dim := true } }] }) ∧
    (s.tables.sort = TablesSort.LastModified →
      out.list_title = { spans := [Span.raw "Tables",
        { content := " (Last Modified) ", style := { dim := true } }] }) := by
  have hti := render_list_title s area now out s2 h
  constructor
  · intro hm
    rw [hti, hm]
    rfl
  · intro hm
    rw [hti, hm]
    rfl

/-- Witness for C10 at a concrete state rendered under each description of
its sort mode. -/
theorem c10_title_reflects_sort_witness :
    ∃ out s2, render
      { tables := { items := [], state := { offset := 0, selected := none },
                    vertical_scroll_state := 0, sort := TablesSort.LastModified },
        roms := [] } { width := 40, height := 12 } 0 = some (out, s2) ∧
      out.list_title = { spans := [Span.raw "Tables",
        { content := " (Last Modified) ", style := { dim := true } }] } := by
  refine ⟨_, _, rfl, ?_⟩
  exact (c10_title_reflects_sort
    { tables := { items := [], state := { offset := 0, selected := none },
                  vertical_scroll_state := 0, sort := TablesSort.LastModified },
      roms := [] } { width := 40, height := 12 } 0 _ _ rfl).2 rfl

/-- A second item with a valid stem, used alongside `c1item` in the C3
counterexample state. -/
def c3item : IndexedTable :=
  { path := "tables/other.vpx",
    table_info := { table_name := none, table_description := none },
    game_name := none, local_rom_path := none, b2s_path := none,
    last_modified := 0 }

/-- A two-item state with the cursor on the second item and the scroll
offset at zero. -/
def c3state : State :=
  { tables := { items := [c1item, c3item],
                state := { offset := 0, selected := some 1 },
                vertical_scroll_state := 0, sort := TablesSort.Name },
    roms := [] }

/-- Counterexample for C3 as stated: rendering the two-item state into a
height-6 frame (a one-row list viewport) succeeds but returns a state that
differs from the input — the list scroll offset moved from 0 to 1 to keep
the cursor visible. -/
theorem c3_counterexample :
    ∃ out s2, render c3state { width := 40, height := 6 } 0 = some (out, s2) ∧
      s2 ≠ c3state ∧
      s2.tables.state.offset = 1 ∧
      c3state.tables.state.offset = 0 := by
  refine ⟨_, _, rfl, by decide, by decide, by decide⟩

/-- C3 amended: whenever `render` succeeds it leaves the items, the sort
mode, the scrollbar state, the availability set and a valid cursor
unchanged; its only state effect is the stateful list widget's scroll
bookkeeping on the list state. -/
theorem c3_amended_render_state_effect (s : State) (area : Rect) (now : Nat)
    (out : RenderOutput) (s2 : State)
    (h : render s area now = some (out, s2)) :
    s2.tables.items = s.tables.items ∧
    s2.tables.sort = s.tables.sort ∧
    s2.tables.vertical_scroll_state = s.tables.vertical_scroll_state ∧
    s2.roms = s.roms ∧
    s2.tables.state = listStatefulUpdate s.tables.state (viewportHeight area)
      s.tables.items.length ∧
    (∀ i, s.tables.state.selected = some i → i < s.tables.items.length →
      s2.tables.state.selected = some i) := by
  have hs2 : s2 = { s with tables := { s.tables with
      state := listStatefulUpdate s.tables.state (viewportHeight area)
        s.tables.items.length } } := by
    unfold render at h
    rcases hmo : mapOption listItemFrom s.tables.items with _ | items <;> rw [hmo] at h
    · simp at h
    · rcases hdt : detailText s now with _ | d <;> rw [hdt] at h
      · simp at h
      · simp at h
        rw [← h.2]
  subst hs2
  refine ⟨rfl, rfl, rfl, rfl, rfl, ?_⟩
  intro i hi hlen
  have hmin : min i (s.tables.items.length - 1) = i := by omega
  simp only [listStatefulUpdate, hi]
  split_ifs <;> simp [hmin, hi]

/-- Witness for C3's amended statement at the counterexample state. -/
theorem c3_amended_render_state_effect_witness :
    ∃ out s2, render c3state { width := 40, height := 6 } 0 = some (out, s2) ∧
      s2.tables.items = c3state.tables.items ∧
      s2.tables.sort = c3state.tables.sort ∧
      s2.roms = c3state.roms := by
  refine ⟨_, _, rfl, ?_⟩
  have h := c3_amended_render_state_effect c3state { width := 40, height := 6 } 0
    _ _ rfl
  exact ⟨h.1, h.2.1, h.2.2.2.1⟩

/-- C6: re-sorting with any mode never removes items (the new list is a
permutation of the old one, in particular of equal length), and the cursor
re-resolves to the selected item by identity: it points at the item's new
position. -/
theorem c6_resort_preserves_selection (ts : TablesState) (mode : TablesSort)
    (i : Nat) (X : IndexedTable)
    (hsel : ts.state.selected = some i) (hget : ts.items[i]? = some X) :
    ((setSortMode ts mode).items).Perm ts.items ∧
    (setSortMode ts mode).items.length = ts.items.length ∧
    ∃ j, (setSortMode ts mode).state.selected = some j ∧
      (setSortMode ts mode).items[j]? = some X := by
  have hperm : (sortItems mode ts.items).Perm ts.items := by
    cases mode <;> exact List.perm_insertionSort _ _
  have hmem : X ∈ sortItems mode ts.items :=
    hperm.mem_iff.mpr (List.getElem?_mem hget)
  have hidx : List.indexOf X (sortItems mode ts.items) <
      (sortItems mode ts.items).length :=
    List.indexOf_lt_length.mpr hmem
  refine ⟨by simpa [setSortMode] using hperm,
    by simpa [setSortMode] using hperm.length_eq, ?_⟩
  refine ⟨List.indexOf X (sortItems mode ts.items), ?_, ?_⟩
  · simp [setSortMode, hsel, hget, hmem]
  · simp only [setSortMode]
    rw [List.getElem?_eq_getElem hidx]
    exact congrArg some (List.getElem_indexOf hidx)

/-- Two named items whose label order differs from their timestamp order. -/
def c6itemA : IndexedTable :=
  { path := "tables/zz.vpx",
    table_info := { table_name := some "zz table", table_description := none },
    game_name := none, local_rom_path := none, b2s_path := none,
    last_modified := 100 }

def c6itemB : IndexedTable :=
  { path := "tables/aa.vpx",
    table_info := { table_name := some "aa table", table_description := none },
    game_name := none, local_rom_path := none, b2s_path := none,
    last_modified := 50 }

def c6state : TablesState :=
  { items := [c6itemA, c6itemB],
    state := { offset := 0, selected := some 1 },
    vertical_scroll_state := 0,
    sort := TablesSort.LastModified }

/-- Witness for C6: selecting the second item and re-sorting by name moves
the cursor with the item to its new position. -/
theorem c6_resort_preserves_selection_witness :
    ((setSortMode c6state TablesSort.Name).items).Perm c6state.items ∧
    (setSortMode c6state TablesSort.Name).items.length = c6state.items.length ∧
    ∃ j, (setSortMode c6state TablesSort.Name).state.selected = some j ∧
      (setSortMode c6state TablesSort.Name).items[j]? = some c6itemB :=
  c6_resort_preserves_selection c6state TablesSort.Name 1 c6itemB rfl rfl

end Ui
